import Mathlib

/-!
Verification development for the CardioCoach core: the cascade orchestrator
with TTL cache and metrics (backend/coach_service.py), the enrichment wrapper
(backend/llm_coach.py), and the pure training-load and periodization functions
(backend/training_engine.py).

Modelling conventions:
- Python floats are modelled by exact rationals; binary floating-point
  rounding error is not modelled.
- Python dicts of request data are modelled as association lists from field
  name to the str() rendering of the stored value.
- time.time() is modelled by an integer clock passed to each call; a call
  reads the clock once (latency samples within a call are 0).
- The md5 hex digest in the cache-key derivation is modelled by the identity
  on the joined key string: the digest is a fixed deterministic function of
  that string, and the verified properties depend only on determinism and on
  which input fields feed the digest.
- The external enrichment provider is modelled by an abstract behaviour
  (returning a text, raising, or timing out), together with a flag for the
  configured API key and a flag for whether the enrichment call itself binds
  without raising (in the current source the call sites pass keyword
  arguments that do not match the callee signatures, so the binding raises
  TypeError and is caught by the orchestrator fallback handler).
-/

namespace CardioCoach

/-! ## Python dict model -/

/-- Association list modelling a Python dict whose values are rendered with str(). -/
abbrev PyDict := List (String × String)

/-- d.get(key): first binding wins, as in a Python dict with unique keys. -/
def dlookup : PyDict → String → Option String
  | [], _ => none
  | (k, v) :: rest, key => if k = key then some v else dlookup rest key

/-- d.get(key, dflt). -/
def dget (d : PyDict) (key dflt : String) : String := (dlookup d key).getD dflt

/-! ## llm_coach.py -/

def isPunct (c : Char) : Bool := c = '.' || c = '!' || c = '?'

/-- max(r.rfind over the characters . ! ?), i.e. the largest index carrying
sentence punctuation, or -1 when there is none. -/
def lastPunct (s : String) : Int :=
  match (s.toList.enum.filter (fun p => isPunct p.2)).getLast? with
  | some p => (p.1 : Int)
  | none => -1

/-- _clean_response: strip, remove a surrounding quote pair, truncate past 700
characters at the last sentence boundary after position 400, strip again. -/
def cleanResponse (response : String) : String :=
  if response = "" then ""
  else
    let r1 := response.trim
    let r2 := if r1.startsWith "\"" && r1.endsWith "\"" then (r1.drop 1).dropRight 1 else r1
    let r3 :=
      if r2.length > 700 then
        let cut := r2.take 700
        let lp := lastPunct cut
        if lp > 400 then cut.take (lp.toNat + 1) else cut
      else r2
    r3.trim

/-- What the external provider does on one call: return a raw text, raise an
exception, or exceed the timeout. -/
inductive ProviderBehavior where
  | returns (text : String)
  | raiseExc
  | timeout

/-- _call_gpt: yields (text-or-None, success flag). A missing or malformed
API key, a raised exception, a timeout, and a response that cleans to the
empty string all produce (None, False); the exception and timeout arms are
the except handlers of _call_gpt. -/
def callGpt (keyOk : Bool) (b : ProviderBehavior) : Option String × Bool :=
  if !keyOk then (none, false)
  else
    match b with
    | .returns t =>
      let cleaned := cleanResponse t
      if cleaned != "" then (some cleaned, true) else (none, false)
    | .raiseExc => (none, false)
    | .timeout => (none, false)

/-- The enrichment attempt as seen from coach_service: either the call binds
and returns the _call_gpt pair, or an exception escapes into the surrounding
try block of coach_service (Except.error). -/
def enrichOutcome (bindsOk keyOk : Bool) (b : ProviderBehavior) : Except Unit (Option String × Bool) :=
  if bindsOk then Except.ok (callGpt keyOk b) else Except.error ()

/-- True exactly when the orchestrator takes the success branch
(success flag set and a non-empty enriched text). -/
def enrichSucceeds (bindsOk keyOk : Bool) (b : ProviderBehavior) : Bool :=
  match enrichOutcome bindsOk keyOk b with
  | Except.ok (t, flag) => flag && t.getD "" != ""
  | Except.error _ => false

/-! ## coach_service.py: cache layer -/

def CACHE_TTL_SECONDS : Int := 3600

def MAX_CACHE_SIZE : Nat := 500

/-- _is_cache_valid. -/
def isCacheValid (now ts : Int) : Bool := now - ts < CACHE_TTL_SECONDS

/-- key in cache, cache[key]: first binding wins (keys of a Python dict are
unique). Generic in the key and value types, as the Python helpers are. -/
def cacheLookup {κ α : Type} [DecidableEq κ] : List (κ × α × Int) → κ → Option (α × Int)
  | [], _ => none
  | (k, v, ts) :: rest, key => if k = key then some (v, ts) else cacheLookup rest key

/-- cache[key] = entry: overwrite in place when present, append when fresh,
matching Python dict insertion order. -/
def dictInsert {κ α : Type} [DecidableEq κ] : List (κ × α × Int) → κ → α × Int → List (κ × α × Int)
  | [], key, e => [(key, e.1, e.2)]
  | (k, v, ts) :: rest, key, e =>
    if k = key then (key, e.1, e.2) :: rest else (k, v, ts) :: dictInsert rest key e

/-- Stable insertion for the timestamp sort. -/
def insertByTs {κ α : Type} (e : κ × α × Int) : List (κ × α × Int) → List (κ × α × Int)
  | [] => [e]
  | f :: rest => if e.2.2 ≤ f.2.2 then e :: f :: rest else f :: insertByTs e rest

/-- sorted(cache.items(), key=timestamp): Python sorted is stable, and a
stable sort is extensionally unique, so stable insertion sort models it. -/
def sortByTs {κ α : Type} : List (κ × α × Int) → List (κ × α × Int)
  | [] => []
  | e :: rest => insertByTs e (sortByTs rest)

/-- _cleanup_cache: once the size exceeds the maximum, drop the TTL-expired
entries; if still over capacity, drop the oldest-by-timestamp entries down to
capacity. Deletion from a Python dict preserves the order of survivors. -/
def cleanupCache {κ α : Type} [DecidableEq κ] (now : Int) (cache : List (κ × α × Int)) :
    List (κ × α × Int) :=
  if cache.length > MAX_CACHE_SIZE then
    let survivors := cache.filter (fun e => isCacheValid now e.2.2)
    if survivors.length > MAX_CACHE_SIZE then
      let sortedItems := sortByTs survivors
      let doomed := (sortedItems.take (survivors.length - MAX_CACHE_SIZE)).map (fun e => e.1)
      survivors.filter (fun e => decide (¬ e.1 ∈ doomed))
    else survivors
  else cache

/-- The read the orchestrator performs: the value when present and unexpired,
a miss otherwise (an expired entry is left in place by the read). -/
def cacheGet {κ α : Type} [DecidableEq κ] (cache : List (κ × α × Int)) (key : κ) (now : Int) :
    Option α :=
  match cacheLookup cache key with
  | some (v, ts) => if isCacheValid now ts then some v else none
  | none => none

/-- The fixed field list of _cache_key. -/
def fingerprintFields : List String :=
  ["id", "distance_km", "duration_minutes", "avg_heart_rate", "type"]

/-- _cache_key: namespace tag and the five field renderings joined with
underscores (md5 modelled as the identity, see the header note). -/
def cacheKey (tag : String) (data : PyDict) : String :=
  String.intercalate "_" (tag :: fingerprintFields.map (fun f => dget data f ""))

/-! ## coach_service.py: metrics -/

structure CoachMetrics where
  llm_success : Nat
  llm_fallback : Nat
  cache_hits : Nat
  total_requests : Nat
  avg_latency_ms : ℚ
  llm_avg_latency_ms : ℚ
  cache_avg_latency_ms : ℚ
  workout_requests : Nat
  weekly_requests : Nat
  chat_requests : Nat

def initialMetrics : CoachMetrics := ⟨0, 0, 0, 0, 0, 0, 0, 0, 0, 0⟩

/-- _update_latency: exponential moving averages with alpha = 0.1. -/
def updateLatency (m : CoachMetrics) (latency : ℚ) (isLlm isCache : Bool) : CoachMetrics :=
  let alpha : ℚ := 0.1
  { m with
    avg_latency_ms := m.avg_latency_ms * (1 - alpha) + latency * alpha
    llm_avg_latency_ms :=
      if isLlm then m.llm_avg_latency_ms * (1 - alpha) + latency * alpha
      else m.llm_avg_latency_ms
    cache_avg_latency_ms :=
      if isCache then m.cache_avg_latency_ms * (1 - alpha) + latency * alpha
      else m.cache_avg_latency_ms }

/-- Python round-half-to-even of an exact rational to an integer. -/
def roundHalfEven (x : ℚ) : Int :=
  let f := ⌊x⌋
  let r := x - (f : ℚ)
  if r < 1/2 then f
  else if 1/2 < r then f + 1
  else if 2 ∣ f then f else f + 1

/-- round(x, 1). -/
def pyRound1 (x : ℚ) : ℚ := (roundHalfEven (x * 10) : ℚ) / 10

/-- round(x, 2). -/
def pyRound2 (x : ℚ) : ℚ := (roundHalfEven (x * 100) : ℚ) / 100

/-- The llm_success_rate field computed by get_metrics. -/
def llm_success_rate (m : CoachMetrics) : ℚ :=
  let total_llm := m.llm_success + m.llm_fallback
  if 0 < total_llm then pyRound1 ((m.llm_success : ℚ) / (total_llm : ℚ) * 100) else 0

/-- The cache_hit_rate field computed by get_metrics. -/
def cache_hit_rate (m : CoachMetrics) : ℚ :=
  if 0 < m.total_requests then pyRound1 ((m.cache_hits : ℚ) / (m.total_requests : ℚ) * 100)
  else 0

/-! ## coach_service.py: cascade orchestrator -/

/-- The process-wide mutable state: metrics and the two caches. -/
structure CoachState where
  metrics : CoachMetrics
  workoutCache : List (String × (String × Bool) × Int)
  weeklyCache : List (String × (String × Bool) × Int)

def initialState : CoachState := ⟨initialMetrics, [], []⟩

/-- The (summary, used_llm) pair a call returns, the successor state, and an
instrumentation flag recording whether the enrichment stage executed (true
exactly when the call did not return from the cache). -/
structure CallOutcome where
  summary : String
  used_llm : Bool
  attempted : Bool
  state : CoachState

/-- analyze_workout. The enrichment payload built from the workout and rag
dicts only feeds the abstract provider, so it is not materialised. -/
def analyzeWorkout (st : CoachState) (workout rag : PyDict) (bindsOk keyOk : Bool)
    (b : ProviderBehavior) (now : Int) : CallOutcome :=
  let m0 := { st.metrics with
    total_requests := st.metrics.total_requests + 1
    workout_requests := st.metrics.workout_requests + 1 }
  let key := cacheKey "workout" workout
  match cacheGet st.workoutCache key now with
  | some val =>
    { summary := val.1, used_llm := val.2, attempted := false,
      state := { st with
        metrics := updateLatency { m0 with cache_hits := m0.cache_hits + 1 } 0 false true } }
  | none =>
    let baseline := dget rag "summary" ""
    let fb : CallOutcome :=
      { summary := baseline, used_llm := false, attempted := true,
        state := { st with
          metrics := updateLatency { m0 with llm_fallback := m0.llm_fallback + 1 } 0 false false
          workoutCache := cleanupCache now (dictInsert st.workoutCache key ((baseline, false), now)) } }
    match enrichOutcome bindsOk keyOk b with
    | Except.ok (optText, flag) =>
      if flag && optText.getD "" != "" then
        let enriched := optText.getD ""
        { summary := enriched, used_llm := true, attempted := true,
          state := { st with
            metrics := updateLatency { m0 with llm_success := m0.llm_success + 1 } 0 true false
            workoutCache := cleanupCache now (dictInsert st.workoutCache key ((enriched, true), now)) } }
      else fb
    | Except.error _ => fb

/-- The cache-key derivation of weekly_review: a synthetic id built from the
session count and total distance, plus distance and duration fields, keyed
through _cache_key with the weekly namespace. -/
def weeklyKey (ragMetrics : PyDict) : String :=
  let idStr := "weekly_" ++ dget ragMetrics "nb_seances" "0" ++ "_" ++ dget ragMetrics "km_total" "0"
  let cacheData : PyDict :=
    [("id", idStr),
     ("distance_km", dget ragMetrics "km_total" "0"),
     ("duration_minutes", dget ragMetrics "duree_totale" "0")]
  cacheKey "weekly" cacheData

/-- weekly_review. The metrics sub-dict rag_result.get("metrics", {}) is
passed as a separate association list. -/
def weeklyReview (st : CoachState) (rag ragMetrics : PyDict) (bindsOk keyOk : Bool)
    (b : ProviderBehavior) (now : Int) : CallOutcome :=
  let m0 := { st.metrics with
    total_requests := st.metrics.total_requests + 1
    weekly_requests := st.metrics.weekly_requests + 1 }
  let key := weeklyKey ragMetrics
  match cacheGet st.weeklyCache key now with
  | some val =>
    { summary := val.1, used_llm := val.2, attempted := false,
      state := { st with
        metrics := updateLatency { m0 with cache_hits := m0.cache_hits + 1 } 0 false true } }
  | none =>
    let baseline := dget rag "summary" ""
    let fb : CallOutcome :=
      { summary := baseline, used_llm := false, attempted := true,
        state := { st with
          metrics := updateLatency { m0 with llm_fallback := m0.llm_fallback + 1 } 0 false false
          weeklyCache := cleanupCache now (dictInsert st.weeklyCache key ((baseline, false), now)) } }
    match enrichOutcome bindsOk keyOk b with
    | Except.ok (optText, flag) =>
      if flag && optText.getD "" != "" then
        let enriched := optText.getD ""
        { summary := enriched, used_llm := true, attempted := true,
          state := { st with
            metrics := updateLatency { m0 with llm_success := m0.llm_success + 1 } 0 true false
            weeklyCache := cleanupCache now (dictInsert st.weeklyCache key ((enriched, true), now)) } }
      else fb
    | Except.error _ => fb

/-- Modelled from the spec: chat_engine.generate_chat_response, the randomized
template fallback of chat_response. The module is not under src; the spec
treats it as an excluded collaborator that yields a response record or raises,
so it is represented by an abstract outcome argument. -/
def templateResponse (tmpl : Except Unit String) : Except Unit String := tmpl

/-- chat_response: no cache; LLM attempt, then template fallback, then a
fixed apology when the fallback itself raises (text elided of accents and
apostrophes). -/
def chatResponse (st : CoachState) (bindsOk keyOk : Bool) (b : ProviderBehavior)
    (tmpl : Except Unit String) : CallOutcome :=
  let m0 := { st.metrics with
    total_requests := st.metrics.total_requests + 1
    chat_requests := st.metrics.chat_requests + 1 }
  let fb : CallOutcome :=
    let m1 := { m0 with llm_fallback := m0.llm_fallback + 1 }
    match templateResponse tmpl with
    | Except.ok s =>
      { summary := s, used_llm := false, attempted := true,
        state := { st with metrics := updateLatency m1 0 false false } }
    | Except.error _ =>
      { summary := "Desole, je n ai pas pu traiter ta demande.", used_llm := false,
        attempted := true, state := { st with metrics := m1 } }
  match enrichOutcome bindsOk keyOk b with
  | Except.ok (optText, flag) =>
    if flag && optText.getD "" != "" then
      { summary := optText.getD "", used_llm := true, attempted := true,
        state := { st with
          metrics := updateLatency { m0 with llm_success := m0.llm_success + 1 } 0 true false } }
    else fb
  | Except.error _ => fb

/-! ## training_engine.py -/

def ACWR_SAFE_MIN : ℚ := 0.8
def ACWR_SAFE_MAX : ℚ := 1.3
def ACWR_DANGER : ℚ := 1.5
def TSB_FATIGUE_THRESHOLD : ℚ := -20
def TSB_FRESH_THRESHOLD : ℚ := 10

/-- compute_acwr. -/
def compute_acwr (load_7 load_28 : ℚ) : ℚ :=
  if load_28 = 0 then 1
  else
    let chronic_avg := load_28 / 4
    pyRound2 (load_7 / chronic_avg)

/-- compute_tsb. -/
def compute_tsb (ctl atl : ℚ) : ℚ := pyRound1 (ctl - atl)

/-- evaluate_risk. -/
def evaluate_risk (acwr tsb : ℚ) : String :=
  if acwr > ACWR_DANGER ∨ tsb < -30 then "critical"
  else if acwr > ACWR_SAFE_MAX ∨ tsb < TSB_FATIGUE_THRESHOLD then "high"
  else if acwr < ACWR_SAFE_MIN then "low"
  else if tsb < -10 then "moderate"
  else "low"

/-- determine_phase. Python floor division and modulo are Int.fdiv and
Int.emod; the float product totalWeeks * 0.6 is exact rational product. -/
def determine_phase (week total_weeks : Int) : String :=
  if week ≥ total_weeks then "race"
  else if week ≥ total_weeks - 2 then "taper"
  else if week = total_weeks.fdiv 2 then "deload"
  else if week > 4 ∧ week.emod 4 = 0 then "deload"
  else if (week : ℚ) < (total_weeks : ℚ) * 0.6 then "build"
  else "intensification"

/-- adjust_load_by_fatigue. -/
def adjust_load_by_fatigue (base_load tsb acwr : ℚ) : ℚ :=
  let a1 :=
    if acwr > ACWR_DANGER then base_load * 0.70
    else if acwr > ACWR_SAFE_MAX then base_load * 0.85
    else base_load
  if tsb < TSB_FATIGUE_THRESHOLD then a1 * 0.90
  else if tsb > TSB_FRESH_THRESHOLD then a1 * 1.05
  else a1

/-- Numeric context dict (ctl, atl, tsb, acwr, ...). -/
abbrev NumDict := List (String × ℚ)

def qlookup : NumDict → String → Option ℚ
  | [], _ => none
  | (k, v) :: rest, key => if k = key then some v else qlookup rest key

def qget (d : NumDict) (key : String) (dflt : ℚ) : ℚ := (qlookup d key).getD dflt

/-- phase_multipliers.get(phase, 1.0) in determine_target_load. -/
def phase_multipliers (phase : String) : ℚ :=
  if phase = "build" then 1.05
  else if phase = "deload" then 0.75
  else if phase = "intensification" then 1.10
  else if phase = "taper" then 0.65
  else if phase = "race" then 0.30
  else 1.0

/-- Python int(): truncation toward zero. -/
def pyInt (q : ℚ) : Int := if 0 ≤ q then ⌊q⌋ else -⌊-q⌋

/-- determine_target_load. -/
def determine_target_load (context : NumDict) (phase : String) : Int :=
  let ctl := qget context "ctl" 40
  let base := ctl * phase_multipliers phase
  let adjusted := adjust_load_by_fatigue base (qget context "tsb" 0) (qget context "acwr" 1.0)
  pyInt adjusted

/-! ## Write-then-cleanup, as performed after each cache store -/

/-- The cache store followed by the opportunistic cleanup, as the orchestrator
performs after computing a result; the entry timestamp is the clock value. -/
def cacheWrite {κ α : Type} [DecidableEq κ] (cache : List (κ × α × Int)) (key : κ) (v : α)
    (now : Int) : List (κ × α × Int) :=
  cleanupCache now (dictInsert cache key (v, now))

/-- A sequence of stores into an initially empty cache, each entry written at
its own timestamp. -/
def foldWrites {κ α : Type} [DecidableEq κ] (entries : List (κ × α × Int)) :
    List (κ × α × Int) :=
  entries.foldl (fun c e => cacheWrite c e.1 e.2.1 e.2.2) []

/-- A concrete 501-entry insertion scenario for the capacity claim: Nat keys
0..500, each entry timestamped with its own index. -/
def mkEntry (i : Nat) : Nat × Unit × Int := (i, (), (i : Int))

/-- The phase assignment as the specification words it, for refinement
against the source transcription. -/
def phaseSpec (week total_weeks : Int) : String :=
  if week ≥ total_weeks then "race"
  else if week ≥ total_weeks - 2 then "taper"
  else if week = total_weeks.fdiv 2 ∨ (week > 4 ∧ week.emod 4 = 0) then "deload"
  else if (week : ℚ) < 0.6 * (total_weeks : ℚ) then "build"
  else "intensification"

/-- The acwr-driven fatigue factor of the claim. -/
def acwrFactor (acwr : ℚ) : ℚ :=
  if acwr > 1.5 then 0.70 else if acwr > 1.3 then 0.85 else 1

/-- The tsb-driven fatigue factor of the claim. -/
def tsbFactor (tsb : ℚ) : ℚ :=
  if tsb < -20 then 0.90 else if tsb > 10 then 1.05 else 1

/-! ## Call sequences, for the metrics invariant -/

/-- One completed orchestrator call with its inputs, collaborator behaviour
and clock reading. -/
inductive CallSpec where
  | workout (w rag : PyDict) (bindsOk keyOk : Bool) (b : ProviderBehavior) (now : Int)
  | weekly (rag ragMetrics : PyDict) (bindsOk keyOk : Bool) (b : ProviderBehavior) (now : Int)
  | chat (bindsOk keyOk : Bool) (b : ProviderBehavior) (tmpl : Except Unit String)

/-- The state reached after one completed call. -/
def runCall (st : CoachState) : CallSpec → CoachState
  | CallSpec.workout w rag bk kk b now => (analyzeWorkout st w rag bk kk b now).state
  | CallSpec.weekly rag m bk kk b now => (weeklyReview st rag m bk kk b now).state
  | CallSpec.chat bk kk b tmpl => (chatResponse st bk kk b tmpl).state

/-- The state after a sequence of completed calls from the freshly
initialized (or reset) service state. -/
def runCalls (calls : List CallSpec) : CoachState := calls.foldl runCall initialState

/-! ## Cache layer lemmas -/

theorem insertByTs_perm {κ α : Type} (e : κ × α × Int) (l : List (κ × α × Int)) :
    List.Perm (insertByTs e l) (e :: l) := by
  induction l with
  | nil => simp [insertByTs]
  | cons f rest ih =>
    simp only [insertByTs]
    split_ifs
    · exact List.Perm.refl _
    · exact ((ih.cons f).trans (List.Perm.swap e f rest))

theorem sortByTs_perm {κ α : Type} (l : List (κ × α × Int)) : List.Perm (sortByTs l) l := by
  induction l with
  | nil => simp [sortByTs]
  | cons e rest ih => exact (insertByTs_perm e (sortByTs rest)).trans (ih.cons e)

theorem insertByTs_of_le {κ α : Type} (e : κ × α × Int) (l : List (κ × α × Int))
    (h : ∀ f ∈ l, e.2.2 ≤ f.2.2) : insertByTs e l = e :: l := by
  cases l with
  | nil => rfl
  | cons f rest => simp only [insertByTs, if_pos (h f (List.mem_cons_self f rest))]

theorem sortByTs_of_sorted {κ α : Type} (l : List (κ × α × Int))
    (h : l.Pairwise (fun a b => a.2.2 ≤ b.2.2)) : sortByTs l = l := by
  induction l with
  | nil => rfl
  | cons e rest ih =>
    rw [List.pairwise_cons] at h
    simp only [sortByTs]
    rw [ih h.2, insertByTs_of_le e rest h.1]

/-- Let-free restatement of the cleanup pass, for rewriting. -/
theorem cleanupCache_eq {κ α : Type} [DecidableEq κ] (now : Int)
    (cache : List (κ × α × Int)) :
    cleanupCache now cache =
      if cache.length > MAX_CACHE_SIZE then
        if (cache.filter (fun e => isCacheValid now e.2.2)).length > MAX_CACHE_SIZE then
          (cache.filter (fun e => isCacheValid now e.2.2)).filter
            (fun e => decide (¬ e.1 ∈
              ((sortByTs (cache.filter (fun e => isCacheValid now e.2.2))).take
                ((cache.filter (fun e => isCacheValid now e.2.2)).length - MAX_CACHE_SIZE)).map
                (fun e => e.1)))
        else cache.filter (fun e => isCacheValid now e.2.2)
      else cache := rfl

/-- The cache size bound of the cleanup pass, unconditionally. -/
theorem cleanupCache_length_le {κ α : Type} [DecidableEq κ] (now : Int)
    (cache : List (κ × α × Int)) : (cleanupCache now cache).length ≤ MAX_CACHE_SIZE := by
  rw [cleanupCache_eq]
  split_ifs with h1 h2
  · set survivors := cache.filter (fun e => isCacheValid now e.2.2) with hs
    set doomed := ((sortByTs survivors).take (survivors.length - MAX_CACHE_SIZE)).map
      (fun e => e.1) with hd
    have hperm : List.Perm (sortByTs survivors) survivors := sortByTs_perm survivors
    have hlen : (sortByTs survivors).length = survivors.length := hperm.length_eq
    have hsplit : (sortByTs survivors).take (survivors.length - MAX_CACHE_SIZE) ++
        (sortByTs survivors).drop (survivors.length - MAX_CACHE_SIZE) = sortByTs survivors :=
      List.take_append_drop _ _
    have hcount : (survivors.filter (fun e => decide (¬ e.1 ∈ doomed))).length =
        survivors.countP (fun e => decide (¬ e.1 ∈ doomed)) :=
      (List.countP_eq_length_filter _ _).symm
    rw [hcount, ← hperm.countP_eq, ← hsplit, List.countP_append]
    have hzero : ((sortByTs survivors).take (survivors.length - MAX_CACHE_SIZE)).countP
        (fun e => decide (¬ e.1 ∈ doomed)) = 0 := by
      rw [List.countP_eq_zero]
      intro a ha
      simp only [decide_not, Bool.not_eq_true', decide_eq_false_iff_not, not_not]
      exact List.mem_map.mpr ⟨a, ha, rfl⟩
    have hdrop : ((sortByTs survivors).drop (survivors.length - MAX_CACHE_SIZE)).countP
        (fun e => decide (¬ e.1 ∈ doomed)) ≤
        ((sortByTs survivors).drop (survivors.length - MAX_CACHE_SIZE)).length :=
      List.countP_le_length _
    rw [hzero]
    rw [List.length_drop] at hdrop
    omega
  · omega
  · omega

/-- When the cache is not over capacity the cleanup pass does nothing. -/
theorem cleanupCache_of_le {κ α : Type} [DecidableEq κ] (now : Int)
    (cache : List (κ × α × Int)) (h : cache.length ≤ MAX_CACHE_SIZE) :
    cleanupCache now cache = cache := by
  unfold cleanupCache
  rw [if_neg (by omega)]

/-- Cleanup of a cache one over capacity, all entries unexpired, timestamps
nondecreasing (so insertion order), distinct keys: exactly the
earliest entry is evicted. -/
theorem cleanupCache_at_cap {κ α : Type} [DecidableEq κ] (now : Int)
    (cache : List (κ × α × Int))
    (hlen : cache.length = MAX_CACHE_SIZE + 1)
    (hvalid : ∀ f ∈ cache, isCacheValid now f.2.2)
    (hsorted : cache.Pairwise (fun a b => a.2.2 ≤ b.2.2))
    (hkeys : (cache.map Prod.fst).Nodup) :
    cleanupCache now cache = cache.tail := by
  rw [cleanupCache_eq]
  have hfilter : cache.filter (fun e => isCacheValid now e.2.2) = cache :=
    List.filter_eq_self.mpr hvalid
  rw [hfilter, if_pos (by omega), if_pos (by omega), sortByTs_of_sorted cache hsorted, hlen]
  have htake1 : MAX_CACHE_SIZE + 1 - MAX_CACHE_SIZE = 1 := by omega
  rw [htake1]
  cases cache with
  | nil => simp at hlen
  | cons e rest =>
    simp only [List.take_succ_cons, List.take_zero, List.map_cons, List.map_nil]
    rw [List.filter_cons]
    have he : (decide (¬ e.1 ∈ [e.1])) = false := by simp
    rw [he]
    simp only [Bool.false_eq_true, if_false, List.tail_cons]
    apply List.filter_eq_self.mpr
    intro a ha
    simp only [List.map_cons, List.nodup_cons] at hkeys
    have : a.1 ∈ rest.map Prod.fst := List.mem_map_of_mem Prod.fst ha
    have hne : a.1 ≠ e.1 := by
      intro hcontra
      exact hkeys.1 (hcontra ▸ this)
    simp [hne]

/-- A key absent from the key column is not found. -/
theorem cacheLookup_eq_none {κ α : Type} [DecidableEq κ] (cache : List (κ × α × Int)) (k : κ)
    (h : k ∉ cache.map Prod.fst) : cacheLookup cache k = none := by
  induction cache with
  | nil => rfl
  | cons e rest ih =>
    simp only [List.map_cons, List.mem_cons, not_or] at h
    simp only [cacheLookup]
    rw [if_neg (fun hc => h.1 hc.symm), ih h.2]

/-- Inserting a key that is not present appends the entry. -/
theorem dictInsert_of_none {κ α : Type} [DecidableEq κ] (cache : List (κ × α × Int)) (k : κ)
    (e : α × Int) (h : cacheLookup cache k = none) :
    dictInsert cache k e = cache ++ [(k, e.1, e.2)] := by
  induction cache with
  | nil => rfl
  | cons f rest ih =>
    simp only [cacheLookup] at h
    by_cases hk : f.1 = k
    · rw [if_pos hk] at h
      exact absurd h (by simp)
    · rw [if_neg hk] at h
      simp only [dictInsert]
      rw [if_neg hk, ih h]
      rfl

/-- A fresh appended entry is found by lookup. -/
theorem cacheLookup_append {κ α : Type} [DecidableEq κ] (cache : List (κ × α × Int)) (k : κ)
    (v : α) (ts : Int) (h : cacheLookup cache k = none) :
    cacheLookup (cache ++ [(k, v, ts)]) k = some (v, ts) := by
  induction cache with
  | nil => simp [cacheLookup]
  | cons f rest ih =>
    simp only [cacheLookup] at h
    by_cases hk : f.1 = k
    · rw [if_pos hk] at h
      exact absurd h (by simp)
    · rw [if_neg hk] at h
      rw [List.cons_append]
      simp only [cacheLookup]
      rw [if_neg hk, ih h]

/-- Writing distinct fresh keys while at or under capacity just appends. -/
theorem foldl_writes_id {κ α : Type} [DecidableEq κ] :
    ∀ (M c : List (κ × α × Int)),
      ((c ++ M).map Prod.fst).Nodup → (c ++ M).length ≤ MAX_CACHE_SIZE →
      M.foldl (fun acc e => cacheWrite acc e.1 e.2.1 e.2.2) c = c ++ M := by
  intro M
  induction M with
  | nil => intro c _ _; simp
  | cons e M' ih =>
    intro c hnodup hlen
    have heq : (c ++ [e]) ++ M' = c ++ e :: M' := by simp
    have hkey : e.1 ∉ c.map Prod.fst := by
      rw [List.map_append, List.nodup_append] at hnodup
      intro hc
      exact hnodup.2.2 hc (by simp)
    have hwrite : cacheWrite c e.1 e.2.1 e.2.2 = c ++ [e] := by
      unfold cacheWrite
      rw [dictInsert_of_none _ _ _ (cacheLookup_eq_none c e.1 hkey)]
      have hlen2 : (c ++ [(e.1, e.2.1, e.2.2)]).length ≤ MAX_CACHE_SIZE := by
        simp only [List.length_append, List.length_cons] at hlen ⊢
        simp only [List.length_nil, List.length_cons]
        omega
      rw [cleanupCache_of_le _ _ hlen2]
    rw [List.foldl_cons, hwrite]
    exact (ih (c ++ [e]) (by rw [heq]; exact hnodup) (by rw [heq]; exact hlen)).trans heq

theorem tail_append_of_ne_nil {β : Type} (M L : List β) (h : M ≠ []) :
    (M ++ L).tail = M.tail ++ L := by
  cases M with
  | nil => exact absurd rfl h
  | cons a t => simp

/-! ## Orchestrator path lemmas -/

/-- A valid cache hit returns the cached pair, increments cache_hits, and
skips the enrichment stage. -/
theorem analyzeWorkout_hit (st : CoachState) (w rag : PyDict) (bk kk : Bool)
    (b : ProviderBehavior) (now : Int) (val : String × Bool)
    (h : cacheGet st.workoutCache (cacheKey "workout" w) now = some val) :
    analyzeWorkout st w rag bk kk b now =
      { summary := val.1, used_llm := val.2, attempted := false,
        state := { st with metrics := (updateLatency
          { st.metrics with
            total_requests := st.metrics.total_requests + 1
            workout_requests := st.metrics.workout_requests + 1
            cache_hits := st.metrics.cache_hits + 1 } 0 false true) } } := by
  simp only [analyzeWorkout]
  rw [h]

/-- A cache miss runs the cascade: some pair is returned and written to the
cache at the current clock; on a non-success of the enrichment stage that
pair is the deterministic baseline with used_llm = false. -/
theorem analyzeWorkout_miss (st : CoachState) (w rag : PyDict) (bk kk : Bool)
    (b : ProviderBehavior) (now : Int)
    (h : cacheGet st.workoutCache (cacheKey "workout" w) now = none) :
    ∃ v : String × Bool,
      analyzeWorkout st w rag bk kk b now =
        { summary := v.1, used_llm := v.2, attempted := true,
          state := { st with
            metrics := updateLatency
              (if enrichSucceeds bk kk b then
                { st.metrics with
                  total_requests := st.metrics.total_requests + 1
                  workout_requests := st.metrics.workout_requests + 1
                  llm_success := st.metrics.llm_success + 1 }
               else
                { st.metrics with
                  total_requests := st.metrics.total_requests + 1
                  workout_requests := st.metrics.workout_requests + 1
                  llm_fallback := st.metrics.llm_fallback + 1 })
              0 (enrichSucceeds bk kk b) false
            workoutCache :=
              cleanupCache now (dictInsert st.workoutCache (cacheKey "workout" w) (v, now)) } } ∧
      (enrichSucceeds bk kk b = false → v = (dget rag "summary" "", false)) ∧
      (enrichSucceeds bk kk b = true → v.2 = true) := by
  simp only [analyzeWorkout]
  rw [h]
  rcases he : enrichOutcome bk kk b with u | p
  · have hs : enrichSucceeds bk kk b = false := by simp [enrichSucceeds, he]
    refine ⟨(dget rag "summary" "", false), ?_, ?_, ?_⟩
    · rw [hs]
      simp
    · intro _
      rfl
    · intro hcon
      rw [hs] at hcon
      cases hcon
  · obtain ⟨opt, flag⟩ := p
    cases hc : (flag && opt.getD "" != "") with
    | true =>
      have hs : enrichSucceeds bk kk b = true := by
        simp only [enrichSucceeds, he]
        exact hc
      refine ⟨(opt.getD "", true), ?_, ?_, ?_⟩
      · simp [hc, hs]
      · intro hcon
        rw [hs] at hcon
        cases hcon
      · intro _
        rfl
    | false =>
      have hs : enrichSucceeds bk kk b = false := by
        simp only [enrichSucceeds, he]
        exact hc
      refine ⟨(dget rag "summary" "", false), ?_, ?_, ?_⟩
      · simp [hc, hs]
      · intro _
        rfl
      · intro hcon
        rw [hs] at hcon
        cases hcon

/-- A valid cache hit of weekly_review returns the cached pair. -/
theorem weeklyReview_hit (st : CoachState) (rag ragMetrics : PyDict) (bk kk : Bool)
    (b : ProviderBehavior) (now : Int) (val : String × Bool)
    (h : cacheGet st.weeklyCache (weeklyKey ragMetrics) now = some val) :
    weeklyReview st rag ragMetrics bk kk b now =
      { summary := val.1, used_llm := val.2, attempted := false,
        state := { st with metrics := (updateLatency
          { st.metrics with
            total_requests := st.metrics.total_requests + 1
            weekly_requests := st.metrics.weekly_requests + 1
            cache_hits := st.metrics.cache_hits + 1 } 0 false true) } } := by
  simp only [weeklyReview]
  rw [h]

/-- A cache miss of weekly_review runs the cascade, returning the baseline
with used_llm = false when enrichment does not succeed. -/
theorem weeklyReview_miss (st : CoachState) (rag ragMetrics : PyDict) (bk kk : Bool)
    (b : ProviderBehavior) (now : Int)
    (h : cacheGet st.weeklyCache (weeklyKey ragMetrics) now = none) :
    ∃ v : String × Bool,
      weeklyReview st rag ragMetrics bk kk b now =
        { summary := v.1, used_llm := v.2, attempted := true,
          state := { st with
            metrics := updateLatency
              (if enrichSucceeds bk kk b then
                { st.metrics with
                  total_requests := st.metrics.total_requests + 1
                  weekly_requests := st.metrics.weekly_requests + 1
                  llm_success := st.metrics.llm_success + 1 }
               else
                { st.metrics with
                  total_requests := st.metrics.total_requests + 1
                  weekly_requests := st.metrics.weekly_requests + 1
                  llm_fallback := st.metrics.llm_fallback + 1 })
              0 (enrichSucceeds bk kk b) false
            weeklyCache :=
              cleanupCache now (dictInsert st.weeklyCache (weeklyKey ragMetrics) (v, now)) } } ∧
      (enrichSucceeds bk kk b = false → v = (dget rag "summary" "", false)) ∧
      (enrichSucceeds bk kk b = true → v.2 = true) := by
  simp only [weeklyReview]
  rw [h]
  rcases he : enrichOutcome bk kk b with u | p
  · have hs : enrichSucceeds bk kk b = false := by simp [enrichSucceeds, he]
    refine ⟨(dget rag "summary" "", false), ?_, ?_, ?_⟩
    · rw [hs]
      simp
    · intro _
      rfl
    · intro hcon
      rw [hs] at hcon
      cases hcon
  · obtain ⟨opt, flag⟩ := p
    cases hc : (flag && opt.getD "" != "") with
    | true =>
      have hs : enrichSucceeds bk kk b = true := by
        simp only [enrichSucceeds, he]
        exact hc
      refine ⟨(opt.getD "", true), ?_, ?_, ?_⟩
      · simp [hc, hs]
      · intro hcon
        rw [hs] at hcon
        cases hcon
      · intro _
        rfl
    | false =>
      have hs : enrichSucceeds bk kk b = false := by
        simp only [enrichSucceeds, he]
        exact hc
      refine ⟨(dget rag "summary" "", false), ?_, ?_, ?_⟩
      · simp [hc, hs]
      · intro _
        rfl
      · intro hcon
        rw [hs] at hcon
        cases hcon

/-- Lookup failure gives a read miss. -/
theorem cacheGet_of_lookup_none {κ α : Type} [DecidableEq κ] (c : List (κ × α × Int)) (k : κ)
    (now : Int) (h : cacheLookup c k = none) : cacheGet c k now = none := by
  unfold cacheGet
  rw [h]

/-- A present, unexpired entry gives a read hit with the stored value. -/
theorem cacheGet_of_valid {κ α : Type} [DecidableEq κ] (c : List (κ × α × Int)) (k : κ)
    (now : Int) (v : α) (ts : Int) (h : cacheLookup c k = some (v, ts))
    (hv : now - ts < CACHE_TTL_SECONDS) : cacheGet c k now = some v := by
  unfold cacheGet
  rw [h]
  simp [isCacheValid, hv]

/-- A present entry whose age reaches the TTL gives a read miss. -/
theorem cacheGet_of_expired {κ α : Type} [DecidableEq κ] (c : List (κ × α × Int)) (k : κ)
    (now : Int) (v : α) (ts : Int) (h : cacheLookup c k = some (v, ts))
    (hv : CACHE_TTL_SECONDS ≤ now - ts) : cacheGet c k now = none := by
  unfold cacheGet
  rw [h]
  have hv2 : ¬(now - ts < CACHE_TTL_SECONDS) := not_lt.mpr hv
  simp [isCacheValid, hv2]

/-- Claim C3: after the cleanup pass that follows each cache write, the cache
holds at most MAX_CACHE_SIZE (500) entries; cleanup first removes TTL-expired
entries, then removes oldest-by-timestamp entries down to capacity. Inserting
MAX_CACHE_SIZE + 1 distinct unexpired entries (each write followed by the
cleanup pass) leaves exactly MAX_CACHE_SIZE entries, the earliest-inserted
entry being the one evicted. -/
theorem C3_cleanup_capacity :
    (∀ (now : Int) (cache : List (String × (String × Bool) × Int)),
      (cleanupCache now cache).length ≤ MAX_CACHE_SIZE) ∧
    (∀ (now : Int) (cache : List (String × (String × Bool) × Int)),
      cache.length > MAX_CACHE_SIZE →
      ∀ e ∈ cleanupCache now cache, isCacheValid now e.2.2) ∧
    (∀ {κ α : Type} [DecidableEq κ] (M : List (κ × α × Int)) (e : κ × α × Int),
      M.length = MAX_CACHE_SIZE →
      ((M ++ [e]).map Prod.fst).Nodup →
      (M ++ [e]).Pairwise (fun a b => a.2.2 ≤ b.2.2) →
      (∀ f ∈ M ++ [e], isCacheValid e.2.2 f.2.2) →
      foldWrites (M ++ [e]) = M.tail ++ [e] ∧
      (foldWrites (M ++ [e])).length = MAX_CACHE_SIZE) := by
  refine ⟨?_, ?_, ?_⟩
  · intro now cache
    exact cleanupCache_length_le now cache
  · intro now cache hover e he
    rw [cleanupCache_eq, if_pos hover] at he
    split_ifs at he with h2
    · exact (List.mem_filter.mp (List.mem_of_mem_filter he)).2
    · exact (List.mem_filter.mp he).2
  · intro κ α inst M e hM hnodup hsorted hvalid
    have hMnodup : (M.map Prod.fst).Nodup := by
      rw [List.map_append] at hnodup
      exact hnodup.of_append_left
    have hMne : M ≠ [] := by
      intro hnil
      rw [hnil] at hM
      simp [MAX_CACHE_SIZE] at hM
    have hkey : e.1 ∉ M.map Prod.fst := by
      rw [List.map_append, List.nodup_append] at hnodup
      intro hc
      exact hnodup.2.2 hc (by simp)
    have hfold : foldWrites (M ++ [e]) =
        cacheWrite (M.foldl (fun acc f => cacheWrite acc f.1 f.2.1 f.2.2) []) e.1 e.2.1 e.2.2 := by
      unfold foldWrites
      rw [List.foldl_append]
      rfl
    have hid : M.foldl (fun acc f => cacheWrite acc f.1 f.2.1 f.2.2) [] = M := by
      have := foldl_writes_id M []
      simp only [List.nil_append] at this
      exact this hMnodup (le_of_eq hM)
    have hinsert : dictInsert M e.1 (e.2.1, e.2.2) = M ++ [e] := by
      rw [dictInsert_of_none _ _ _ (cacheLookup_eq_none M e.1 hkey)]
    have hclean : cleanupCache e.2.2 (M ++ [e]) = (M ++ [e]).tail := by
      apply cleanupCache_at_cap
      · simp only [List.length_append, List.length_cons, List.length_nil]
        omega
      · exact hvalid
      · exact hsorted
      · exact hnodup
    have hres : foldWrites (M ++ [e]) = M.tail ++ [e] := by
      rw [hfold, hid]
      unfold cacheWrite
      rw [hinsert, hclean, tail_append_of_ne_nil M [e] hMne]
    refine ⟨hres, ?_⟩
    rw [hres]
    simp only [List.length_append, List.length_tail, List.length_cons, List.length_nil]
    rw [hM]
    norm_num [MAX_CACHE_SIZE]

theorem C3_witness :
    foldWrites ((List.range MAX_CACHE_SIZE).map mkEntry ++ [mkEntry MAX_CACHE_SIZE]) =
      ((List.range MAX_CACHE_SIZE).map mkEntry).tail ++ [mkEntry MAX_CACHE_SIZE] ∧
    (cleanupCache 7 ([("k", ("s", true), (0 : Int))] : List (String × (String × Bool) × Int))).length ≤
      MAX_CACHE_SIZE := by
  have hME : (List.range MAX_CACHE_SIZE).map mkEntry ++ [mkEntry MAX_CACHE_SIZE] =
      (List.range (MAX_CACHE_SIZE + 1)).map mkEntry := by
    rw [List.range_succ, List.map_append, List.map_singleton]
  constructor
  · refine (C3_cleanup_capacity.2.2 _ _ ?_ ?_ ?_ ?_).1
    · simp
    · rw [hME, List.map_map]
      have hcomp : (Prod.fst ∘ mkEntry) = id := funext fun i => rfl
      rw [hcomp, List.map_id]
      exact List.nodup_range _
    · rw [hME, List.pairwise_map]
      exact (List.pairwise_lt_range _).imp
        (fun {a b} h => by
          show ((a : Nat) : Int) ≤ ((b : Nat) : Int)
          exact_mod_cast Nat.le_of_lt h)
    · intro f hf
      rw [hME] at hf
      obtain ⟨i, hi, rfl⟩ := List.mem_map.mp hf
      rw [List.mem_range] at hi
      show isCacheValid ((MAX_CACHE_SIZE : Nat) : Int) ((i : Nat) : Int)
      simp only [isCacheValid, CACHE_TTL_SECONDS, MAX_CACHE_SIZE, decide_eq_true_eq]
      omega
  · exact C3_cleanup_capacity.1 7 _

/-! ## Pure training-engine claims -/

/-- Claim C5: evaluate_risk follows the exact precedence critical, high,
low (undertraining), moderate, low, with the stated thresholds. -/
theorem C5_evaluate_risk_precedence :
    ∀ acwr tsb : ℚ,
      (acwr > 1.5 ∨ tsb < -30 → evaluate_risk acwr tsb = "critical") ∧
      (¬(acwr > 1.5 ∨ tsb < -30) → (acwr > 1.3 ∨ tsb < -20) →
        evaluate_risk acwr tsb = "high") ∧
      (¬(acwr > 1.5 ∨ tsb < -30) → ¬(acwr > 1.3 ∨ tsb < -20) → acwr < 0.8 →
        evaluate_risk acwr tsb = "low") ∧
      (¬(acwr > 1.5 ∨ tsb < -30) → ¬(acwr > 1.3 ∨ tsb < -20) → ¬(acwr < 0.8) → tsb < -10 →
        evaluate_risk acwr tsb = "moderate") ∧
      (¬(acwr > 1.5 ∨ tsb < -30) → ¬(acwr > 1.3 ∨ tsb < -20) → ¬(acwr < 0.8) → ¬(tsb < -10) →
        evaluate_risk acwr tsb = "low") := by
  intro a t
  refine ⟨?_, ?_, ?_, ?_, ?_⟩ <;>
    (intros
     simp only [evaluate_risk, ACWR_DANGER, ACWR_SAFE_MAX, ACWR_SAFE_MIN,
       TSB_FATIGUE_THRESHOLD]
     split_ifs <;> first | rfl | tauto)

theorem C5_witness :
    evaluate_risk 1.6 0 = "critical" ∧ evaluate_risk 1.0 (-25) = "high" ∧
    evaluate_risk 0.7 0 = "low" ∧ evaluate_risk 1.0 (-15) = "moderate" :=
  ⟨(C5_evaluate_risk_precedence 1.6 0).1 (Or.inl (by norm_num)),
   (C5_evaluate_risk_precedence 1.0 (-25)).2.1 (by norm_num) (Or.inr (by norm_num)),
   (C5_evaluate_risk_precedence 0.7 0).2.2.1 (by norm_num) (by norm_num) (by norm_num),
   (C5_evaluate_risk_precedence 1.0 (-15)).2.2.2.1 (by norm_num) (by norm_num) (by norm_num)
     (by norm_num)⟩

/-- Claim C6: determine_phase is total with exactly the spec's ordered case
analysis; every week at or past totalWeeks is race, the two weeks before are
taper, and taper shadows deload eligibility. -/
theorem C6_determine_phase :
    ∀ week total_weeks : Int,
      determine_phase week total_weeks = phaseSpec week total_weeks ∧
      (determine_phase week total_weeks = "build" ∨
       determine_phase week total_weeks = "deload" ∨
       determine_phase week total_weeks = "intensification" ∨
       determine_phase week total_weeks = "taper" ∨
       determine_phase week total_weeks = "race") ∧
      (week ≥ total_weeks → determine_phase week total_weeks = "race") ∧
      (total_weeks - 2 ≤ week → week < total_weeks →
        (week = total_weeks.fdiv 2 ∨ (week > 4 ∧ week.emod 4 = 0)) →
        determine_phase week total_weeks = "taper") := by
  intro w t
  refine ⟨?_, ?_, ?_, ?_⟩
  · simp only [determine_phase, phaseSpec]
    split_ifs <;> first | rfl | tauto | linarith [mul_comm (t : ℚ) (0.6 : ℚ)]
  · simp only [determine_phase]
    split_ifs <;> tauto
  · intro h
    simp only [determine_phase]
    rw [if_pos h]
  · intro h1 h2 _
    simp only [determine_phase]
    rw [if_neg (by omega), if_pos (by omega)]

theorem C6_witness :
    determine_phase 12 10 = "race" ∧ determine_phase 8 10 = "taper" ∧
    (determine_phase 8 10 = phaseSpec 8 10 ∨ determine_phase 8 10 = "build" ∨
      determine_phase 8 10 = "deload" ∨ determine_phase 8 10 = "intensification" ∨
      determine_phase 8 10 = "taper" ∨ determine_phase 8 10 = "race") :=
  ⟨(C6_determine_phase 12 10).2.2.1 (by decide),
   (C6_determine_phase 8 10).2.2.2 (by decide) (by decide) (Or.inr (by decide)),
   Or.inl (C6_determine_phase 8 10).1⟩

/-- Claim C7, counterexample: determine_target_load returns int(adjusted), so
with ctl = 41 in the build phase the code yields 43 while the claimed exact
product ctl x multiplier is 43.05. -/
theorem C7_counterexample :
    determine_target_load [("ctl", 41)] "build" = 43 ∧ ((43 : ℚ) ≠ 41 * 1.05) := by
  constructor
  · simp only [determine_target_load, qget, qlookup, phase_multipliers, adjust_load_by_fatigue,
      ACWR_DANGER, ACWR_SAFE_MAX, TSB_FATIGUE_THRESHOLD, TSB_FRESH_THRESHOLD]
    simp
    norm_num [pyInt]
  · norm_num

/-- Claim C7 as amended: determine_target_load equals the int() truncation of
ctl x phaseMultiplier x acwr-factor x tsb-factor, the two fatigue adjustments
applied independently and multiplicatively; with ctl 40, phase deload and no
fatigue adjustment the result is 30. -/
theorem C7_target_load_amended :
    (∀ (context : NumDict) (phase : String),
      determine_target_load context phase =
        pyInt (qget context "ctl" 40 * phase_multipliers phase *
          acwrFactor (qget context "acwr" 1.0) * tsbFactor (qget context "tsb" 0))) ∧
    determine_target_load [("ctl", 40)] "deload" = 30 := by
  constructor
  · intro c p
    simp only [determine_target_load, adjust_load_by_fatigue, acwrFactor, tsbFactor,
      ACWR_DANGER, ACWR_SAFE_MAX, TSB_FATIGUE_THRESHOLD, TSB_FRESH_THRESHOLD]
    split_ifs <;> exact congrArg pyInt (by ring)
  · simp only [determine_target_load, qget, qlookup, phase_multipliers, adjust_load_by_fatigue,
      ACWR_DANGER, ACWR_SAFE_MAX, TSB_FATIGUE_THRESHOLD, TSB_FRESH_THRESHOLD]
    simp
    norm_num [pyInt]

/-- Claim C8, counterexample: compute_acwr rounds to two decimals, so
compute_acwr 1 3 is 1.33, not the exact quotient 4/3 the claim states. -/
theorem C8_counterexample :
    compute_acwr 1 3 = 133/100 ∧ ((133 : ℚ)/100 ≠ 1 / (3 / 4)) := by
  constructor
  · norm_num [compute_acwr, pyRound2, roundHalfEven]
  · norm_num

/-- Claim C8 as amended: compute_acwr returns 1.0 whenever load28 = 0, for
every load7 (no division by zero); otherwise it returns load7 divided by the
chronic average load28/4, rounded half-to-even to two decimals. -/
theorem C8_acwr_amended :
    (∀ load_7 : ℚ, compute_acwr load_7 0 = 1) ∧
    (∀ load_7 load_28 : ℚ, load_28 ≠ 0 →
      compute_acwr load_7 load_28 = pyRound2 (load_7 / (load_28 / 4))) := by
  constructor
  · intro l7
    simp [compute_acwr]
  · intro l7 l28 h
    simp only [compute_acwr, if_neg h]

theorem C8_witness :
    compute_acwr 7 0 = 1 ∧ compute_acwr 1 3 = pyRound2 (1 / (3 / 4)) :=
  ⟨C8_acwr_amended.1 7, C8_acwr_amended.2 1 3 (by norm_num)⟩

/-- Claim C9: the derived rates of get_metrics are 0 when their denominators
are 0, and otherwise the percentage hit or success ratio rounded to one
decimal; 3 cache hits out of 7 total requests give 42.9. -/
theorem C9_metrics_rates :
    (∀ m : CoachMetrics, m.total_requests = 0 → cache_hit_rate m = 0) ∧
    (∀ m : CoachMetrics, m.llm_success + m.llm_fallback = 0 → llm_success_rate m = 0) ∧
    (∀ m : CoachMetrics, 0 < m.total_requests →
      cache_hit_rate m = pyRound1 ((m.cache_hits : ℚ) / (m.total_requests : ℚ) * 100)) ∧
    (∀ m : CoachMetrics, 0 < m.llm_success + m.llm_fallback →
      llm_success_rate m =
        pyRound1 ((m.llm_success : ℚ) / ((m.llm_success + m.llm_fallback : Nat) : ℚ) * 100)) ∧
    (∀ m : CoachMetrics, m.cache_hits = 3 → m.total_requests = 7 →
      cache_hit_rate m = 42.9) := by
  refine ⟨?_, ?_, ?_, ?_, ?_⟩
  · intro m h
    simp [cache_hit_rate, h]
  · intro m h
    simp [llm_success_rate, h]
  · intro m h
    simp only [cache_hit_rate, if_pos h]
  · intro m h
    simp only [llm_success_rate, if_pos h]
  · intro m h3 h7
    rw [cache_hit_rate, if_pos (by omega), h3, h7]
    norm_num [pyRound1, roundHalfEven]

theorem C9_witness :
    cache_hit_rate ⟨0, 0, 0, 0, 0, 0, 0, 0, 0, 0⟩ = 0 ∧
    llm_success_rate ⟨0, 0, 3, 7, 0, 0, 0, 0, 0, 0⟩ = 0 ∧
    cache_hit_rate ⟨0, 0, 3, 7, 0, 0, 0, 0, 0, 0⟩ = 42.9 :=
  ⟨C9_metrics_rates.1 _ rfl, C9_metrics_rates.2.1 _ rfl,
   C9_metrics_rates.2.2.2.2 _ rfl rfl⟩

/-! ## Cascade availability and cache-semantics claims -/

/-- Claim C1: every enumerated provider behaviour short of a successful
non-empty response (success flag false through a missing key or a failed call
binding, empty cleaned text, raised exception, timeout) is a non-success of
the enrichment stage, and under any such behaviour analyze_workout and
weekly_review complete normally on the cache-miss path, returning the
deterministic baseline summary with used_llm = false. (In the model every
call returns a defined CallOutcome for every behaviour: no enrichment failure
escapes as an error, the raising arms being routed to the fallback handler
exactly as the except blocks of the source do.) -/
theorem C1_total_availability :
    ∀ (st : CoachState) (workout rag ragMetrics : PyDict) (bindsOk keyOk : Bool)
      (b : ProviderBehavior) (now : Int),
      (enrichSucceeds bindsOk keyOk ProviderBehavior.raiseExc = false) ∧
      (enrichSucceeds bindsOk keyOk ProviderBehavior.timeout = false) ∧
      (∀ t, cleanResponse t = "" →
        enrichSucceeds bindsOk keyOk (ProviderBehavior.returns t) = false) ∧
      ((bindsOk = false ∨ keyOk = false) → enrichSucceeds bindsOk keyOk b = false) ∧
      (enrichSucceeds bindsOk keyOk b = false →
        cacheGet st.workoutCache (cacheKey "workout" workout) now = none →
        (analyzeWorkout st workout rag bindsOk keyOk b now).summary = dget rag "summary" "" ∧
        (analyzeWorkout st workout rag bindsOk keyOk b now).used_llm = false) ∧
      (enrichSucceeds bindsOk keyOk b = false →
        cacheGet st.weeklyCache (weeklyKey ragMetrics) now = none →
        (weeklyReview st rag ragMetrics bindsOk keyOk b now).summary = dget rag "summary" "" ∧
        (weeklyReview st rag ragMetrics bindsOk keyOk b now).used_llm = false) := by
  intro st workout rag ragMetrics bindsOk keyOk b now
  refine ⟨?_, ?_, ?_, ?_, ?_, ?_⟩
  · cases bindsOk <;> cases keyOk <;> simp [enrichSucceeds, enrichOutcome, callGpt]
  · cases bindsOk <;> cases keyOk <;> simp [enrichSucceeds, enrichOutcome, callGpt]
  · intro t ht
    cases bindsOk <;> cases keyOk <;> simp [enrichSucceeds, enrichOutcome, callGpt, ht]
  · intro hcfg
    rcases hcfg with hb | hk
    · subst hb
      simp [enrichSucceeds, enrichOutcome]
    · subst hk
      cases bindsOk <;> simp [enrichSucceeds, enrichOutcome, callGpt]
  · intro hfail hm
    obtain ⟨v, heq, hfb, _⟩ := analyzeWorkout_miss st workout rag bindsOk keyOk b now hm
    have hv := hfb hfail
    rw [heq, hv]
    exact ⟨rfl, rfl⟩
  · intro hfail hm
    obtain ⟨v, heq, hfb, _⟩ := weeklyReview_miss st rag ragMetrics bindsOk keyOk b now hm
    have hv := hfb hfail
    rw [heq, hv]
    exact ⟨rfl, rfl⟩

theorem C1_witness :
    (analyzeWorkout initialState [] [("summary", "base")] true true
        ProviderBehavior.raiseExc 0).summary = dget [("summary", "base")] "summary" "" ∧
    (analyzeWorkout initialState [] [("summary", "base")] true true
        ProviderBehavior.raiseExc 0).used_llm = false :=
  (C1_total_availability initialState [] [("summary", "base")] [] true true
    ProviderBehavior.raiseExc 0).2.2.2.2.1 rfl rfl

/-- Claim C2: the cache key depends only on the five fingerprint fields, so
two analyze_workout calls agreeing on them, the second within TTL of the
first, with the key initially uncached and no eviction in between (the cache
below capacity), attempt enrichment exactly once — in the first call — and
both return the same (summary, used_llm) pair. -/
theorem C2_fingerprint_cache :
    (∀ (w1 w2 : PyDict) (tag : String),
      (∀ f ∈ fingerprintFields, dget w1 f "" = dget w2 f "") →
      cacheKey tag w1 = cacheKey tag w2) ∧
    (∀ (st : CoachState) (w1 rag1 w2 rag2 : PyDict) (bk1 kk1 bk2 kk2 : Bool)
      (b1 b2 : ProviderBehavior) (t1 t2 : Int),
      (∀ f ∈ fingerprintFields, dget w1 f "" = dget w2 f "") →
      cacheLookup st.workoutCache (cacheKey "workout" w1) = none →
      st.workoutCache.length < MAX_CACHE_SIZE →
      t2 - t1 < CACHE_TTL_SECONDS →
      (analyzeWorkout st w1 rag1 bk1 kk1 b1 t1).attempted = true ∧
      (analyzeWorkout (analyzeWorkout st w1 rag1 bk1 kk1 b1 t1).state
        w2 rag2 bk2 kk2 b2 t2).attempted = false ∧
      (analyzeWorkout (analyzeWorkout st w1 rag1 bk1 kk1 b1 t1).state
        w2 rag2 bk2 kk2 b2 t2).summary = (analyzeWorkout st w1 rag1 bk1 kk1 b1 t1).summary ∧
      (analyzeWorkout (analyzeWorkout st w1 rag1 bk1 kk1 b1 t1).state
        w2 rag2 bk2 kk2 b2 t2).used_llm = (analyzeWorkout st w1 rag1 bk1 kk1 b1 t1).used_llm) := by
  have hkeyCong : ∀ (w1 w2 : PyDict) (tag : String),
      (∀ f ∈ fingerprintFields, dget w1 f "" = dget w2 f "") →
      cacheKey tag w1 = cacheKey tag w2 := by
    intro w1 w2 tag hagree
    unfold cacheKey
    rw [List.map_congr_left hagree]
  refine ⟨hkeyCong, ?_⟩
  intro st w1 rag1 w2 rag2 bk1 kk1 bk2 kk2 b1 b2 t1 t2 hagree hmiss hcap httl
  have hget1 : cacheGet st.workoutCache (cacheKey "workout" w1) t1 = none :=
    cacheGet_of_lookup_none _ _ _ hmiss
  obtain ⟨v, heq1, _, _⟩ := analyzeWorkout_miss st w1 rag1 bk1 kk1 b1 t1 hget1
  have hkey21 : cacheKey "workout" w2 = cacheKey "workout" w1 :=
    hkeyCong w2 w1 "workout" (fun f hf => (hagree f hf).symm)
  have hclean : cleanupCache t1 (dictInsert st.workoutCache (cacheKey "workout" w1) (v, t1)) =
      st.workoutCache ++ [(cacheKey "workout" w1, v, t1)] := by
    rw [dictInsert_of_none _ _ _ hmiss]
    refine cleanupCache_of_le _ _ ?_
    rw [List.length_append]
    simpa using Nat.succ_le_of_lt hcap
  have hget2 :
      cacheGet (cleanupCache t1 (dictInsert st.workoutCache (cacheKey "workout" w1) (v, t1)))
        (cacheKey "workout" w2) t2 = some v := by
    rw [hkey21, hclean]
    exact cacheGet_of_valid _ _ _ _ _ (cacheLookup_append _ _ _ _ hmiss) httl
  have hstate : cacheGet (analyzeWorkout st w1 rag1 bk1 kk1 b1 t1).state.workoutCache
      (cacheKey "workout" w2) t2 = some v := by
    rw [heq1]
    exact hget2
  have hhit := analyzeWorkout_hit (analyzeWorkout st w1 rag1 bk1 kk1 b1 t1).state
    w2 rag2 bk2 kk2 b2 t2 v hstate
  refine ⟨?_, ?_, ?_, ?_⟩
  · rw [heq1]
  · rw [hhit]
  · rw [hhit, heq1]
  · rw [hhit, heq1]

theorem C2_witness :
    (analyzeWorkout initialState [("id", "1")] [("summary", "s")] true true
        ProviderBehavior.timeout 0).attempted = true ∧
    (analyzeWorkout (analyzeWorkout initialState [("id", "1")] [("summary", "s")] true true
        ProviderBehavior.timeout 0).state [("id", "1"), ("foo", "bar")] [] true true
        ProviderBehavior.raiseExc 10).attempted = false ∧
    (analyzeWorkout (analyzeWorkout initialState [("id", "1")] [("summary", "s")] true true
        ProviderBehavior.timeout 0).state [("id", "1"), ("foo", "bar")] [] true true
        ProviderBehavior.raiseExc 10).summary =
      (analyzeWorkout initialState [("id", "1")] [("summary", "s")] true true
        ProviderBehavior.timeout 0).summary ∧
    (analyzeWorkout (analyzeWorkout initialState [("id", "1")] [("summary", "s")] true true
        ProviderBehavior.timeout 0).state [("id", "1"), ("foo", "bar")] [] true true
        ProviderBehavior.raiseExc 10).used_llm =
      (analyzeWorkout initialState [("id", "1")] [("summary", "s")] true true
        ProviderBehavior.timeout 0).used_llm :=
  C2_fingerprint_cache.2 initialState [("id", "1")] [("summary", "s")]
    [("id", "1"), ("foo", "bar")] [] true true true true
    ProviderBehavior.timeout ProviderBehavior.raiseExc 0 10
    (by decide) rfl (by norm_num [initialState, MAX_CACHE_SIZE])
    (by norm_num [CACHE_TTL_SECONDS])

/-- Claim C4: a present-but-expired entry (age at least the TTL) is treated
as a miss: the orchestrator does not return the cached pair, re-runs the
cascade (enrichment attempted, cache_hits untouched) and degrades to the
baseline when enrichment does not succeed; a hit returning the cached value
happens exactly when the entry is present and strictly younger than the TTL,
incrementing cache_hits. -/
theorem C4_ttl_expiry_is_miss :
    ∀ (st : CoachState) (workout rag : PyDict) (bindsOk keyOk : Bool) (b : ProviderBehavior)
      (now : Int) (val : String × Bool) (ts : Int),
      cacheLookup st.workoutCache (cacheKey "workout" workout) = some (val, ts) →
      (CACHE_TTL_SECONDS ≤ now - ts →
        (analyzeWorkout st workout rag bindsOk keyOk b now).attempted = true ∧
        (analyzeWorkout st workout rag bindsOk keyOk b now).state.metrics.cache_hits =
          st.metrics.cache_hits ∧
        (enrichSucceeds bindsOk keyOk b = false →
          (analyzeWorkout st workout rag bindsOk keyOk b now).summary = dget rag "summary" "" ∧
          (analyzeWorkout st workout rag bindsOk keyOk b now).used_llm = false)) ∧
      (now - ts < CACHE_TTL_SECONDS →
        (analyzeWorkout st workout rag bindsOk keyOk b now).attempted = false ∧
        (analyzeWorkout st workout rag bindsOk keyOk b now).summary = val.1 ∧
        (analyzeWorkout st workout rag bindsOk keyOk b now).used_llm = val.2 ∧
        (analyzeWorkout st workout rag bindsOk keyOk b now).state.metrics.cache_hits =
          st.metrics.cache_hits + 1) := by
  intro st workout rag bindsOk keyOk b now val ts hlook
  constructor
  · intro hexp
    have hget := cacheGet_of_expired _ _ _ _ _ hlook hexp
    obtain ⟨v, heq, hfb, _⟩ := analyzeWorkout_miss st workout rag bindsOk keyOk b now hget
    refine ⟨by rw [heq], ?_, ?_⟩
    · rw [heq]
      cases he : enrichSucceeds bindsOk keyOk b <;> simp [he, updateLatency]
    · intro hfail
      have hv := hfb hfail
      rw [heq, hv]
      exact ⟨rfl, rfl⟩
  · intro hvalid
    have hget := cacheGet_of_valid _ _ _ _ _ hlook hvalid
    have hhit := analyzeWorkout_hit st workout rag bindsOk keyOk b now val hget
    refine ⟨by rw [hhit], by rw [hhit], by rw [hhit], ?_⟩
    rw [hhit]
    simp [updateLatency]

theorem C4_witness :
    (analyzeWorkout ⟨initialMetrics, [(cacheKey "workout" [], ("cached", true), 0)], []⟩
        [] [] true true ProviderBehavior.timeout 3600).attempted = true ∧
    (analyzeWorkout ⟨initialMetrics, [(cacheKey "workout" [], ("cached", true), 0)], []⟩
        [] [] true true ProviderBehavior.timeout 10).attempted = false ∧
    (analyzeWorkout ⟨initialMetrics, [(cacheKey "workout" [], ("cached", true), 0)], []⟩
        [] [] true true ProviderBehavior.timeout 10).summary = "cached" := by
  have hlook : cacheLookup
      ([(cacheKey "workout" [], (("cached", true) : String × Bool), (0 : Int))])
      (cacheKey "workout" []) = some (("cached", true), 0) := by
    simp [cacheLookup]
  refine ⟨?_, ?_, ?_⟩
  · exact ((C4_ttl_expiry_is_miss
      ⟨initialMetrics, [(cacheKey "workout" [], ("cached", true), 0)], []⟩ [] []
      true true ProviderBehavior.timeout 3600 ("cached", true) 0 hlook).1
        (by norm_num [CACHE_TTL_SECONDS])).1
  · exact ((C4_ttl_expiry_is_miss
      ⟨initialMetrics, [(cacheKey "workout" [], ("cached", true), 0)], []⟩ [] []
      true true ProviderBehavior.timeout 10 ("cached", true) 0 hlook).2
        (by norm_num [CACHE_TTL_SECONDS])).1
  · exact ((C4_ttl_expiry_is_miss
      ⟨initialMetrics, [(cacheKey "workout" [], ("cached", true), 0)], []⟩ [] []
      true true ProviderBehavior.timeout 10 ("cached", true) 0 hlook).2
        (by norm_num [CACHE_TTL_SECONDS])).2.1

/-- Each completed call adds exactly one to total_requests, one to the sum of
the three outcome counters, and one to the sum of the three per-type
counters. -/
theorem runCall_delta (st : CoachState) (c : CallSpec) :
    (runCall st c).metrics.total_requests = st.metrics.total_requests + 1 ∧
    (runCall st c).metrics.cache_hits + (runCall st c).metrics.llm_success +
        (runCall st c).metrics.llm_fallback =
      st.metrics.cache_hits + st.metrics.llm_success + st.metrics.llm_fallback + 1 ∧
    (runCall st c).metrics.workout_requests + (runCall st c).metrics.weekly_requests +
        (runCall st c).metrics.chat_requests =
      st.metrics.workout_requests + st.metrics.weekly_requests +
        st.metrics.chat_requests + 1 := by
  cases c with
  | workout w rag bk kk b now =>
    simp only [runCall]
    rcases hg : cacheGet st.workoutCache (cacheKey "workout" w) now with _ | val
    · obtain ⟨v, heq, _, _⟩ := analyzeWorkout_miss st w rag bk kk b now hg
      rw [heq]
      cases he : enrichSucceeds bk kk b <;> simp [he, updateLatency] <;> omega
    · rw [analyzeWorkout_hit st w rag bk kk b now val hg]
      simp [updateLatency]
      omega
  | weekly rag m bk kk b now =>
    simp only [runCall]
    rcases hg : cacheGet st.weeklyCache (weeklyKey m) now with _ | val
    · obtain ⟨v, heq, _, _⟩ := weeklyReview_miss st rag m bk kk b now hg
      rw [heq]
      cases he : enrichSucceeds bk kk b <;> simp [he, updateLatency] <;> omega
    · rw [weeklyReview_hit st rag m bk kk b now val hg]
      simp [updateLatency]
      omega
  | chat bk kk b tmpl =>
    simp only [runCall, chatResponse]
    rcases he : enrichOutcome bk kk b with u | p
    · cases tmpl <;> simp [templateResponse, updateLatency] <;> omega
    · obtain ⟨opt, flag⟩ := p
      cases hc : (flag && opt.getD "" != "") <;> cases tmpl <;>
        simp [hc, templateResponse, updateLatency] <;> omega

/-- Claim C10: from the freshly initialized (or reset) metrics, after any
sequence of completed analyze_workout, weekly_review and chat_response calls,
total_requests equals cache_hits + llm_success + llm_fallback and also equals
workout_requests + weekly_requests + chat_requests; every call increments
total_requests, its own per-type counter, and exactly one outcome counter. -/
theorem C10_metrics_consistency :
    ∀ calls : List CallSpec,
      ((runCalls calls).metrics.total_requests =
        (runCalls calls).metrics.cache_hits + (runCalls calls).metrics.llm_success +
          (runCalls calls).metrics.llm_fallback) ∧
      ((runCalls calls).metrics.total_requests =
        (runCalls calls).metrics.workout_requests + (runCalls calls).metrics.weekly_requests +
          (runCalls calls).metrics.chat_requests) := by
  have key : ∀ (l : List CallSpec) (st : CoachState),
      (st.metrics.total_requests =
        st.metrics.cache_hits + st.metrics.llm_success + st.metrics.llm_fallback) →
      (st.metrics.total_requests =
        st.metrics.workout_requests + st.metrics.weekly_requests + st.metrics.chat_requests) →
      ((l.foldl runCall st).metrics.total_requests =
        (l.foldl runCall st).metrics.cache_hits + (l.foldl runCall st).metrics.llm_success +
          (l.foldl runCall st).metrics.llm_fallback) ∧
      ((l.foldl runCall st).metrics.total_requests =
        (l.foldl runCall st).metrics.workout_requests +
          (l.foldl runCall st).metrics.weekly_requests +
          (l.foldl runCall st).metrics.chat_requests) := by
    intro l
    induction l with
    | nil =>
      intro st h1 h2
      exact ⟨h1, h2⟩
    | cons c rest ih =>
      intro st h1 h2
      rw [List.foldl_cons]
      obtain ⟨d1, d2, d3⟩ := runCall_delta st c
      exact ih (runCall st c) (by omega) (by omega)
  intro calls
  exact key calls initialState rfl rfl

end CardioCoach
